import Mathlib

/-!
Shallow embedding of the core logic of `crl-serials-validator`
(`src/validator_lib/utilities.py`): the slash-year reconciler, the
magic-word classifier, the unused-filename search, and the
fields/issues policy resolver (`FieldsAndIssuesFinder`).

Python strings are Lean `String`s (worked on as `List Char`); Python
`None`-able text arguments are `Option String`; a Python function that can
raise an uncaught exception is modelled as returning `Option`/`none` on the
raising path.  `re.search` calls are embedded as hand-rolled leftmost-match
scanners specialised to the concrete patterns appearing in the source;
the character class `\w` (for `\b`) is modelled over its ASCII fragment.
-/

/-- Value that a Python variable holding either an `int` or a `str` can take.
`get_earlier_of_slash_year` / `get_later_of_slash_year` return the year
either as the number they were given or as the matched digit string. -/
inductive PyVal where
  | intv : Nat → PyVal
  | strv : String → PyVal
deriving DecidableEq

/-- Numeric value of a list of decimal digit characters, as Python
`int()` computes it on a well-formed digit string. -/
def pyListToNat (l : List Char) : Nat :=
  l.foldl (fun a c => a * 10 + (c.toNat - 48)) 0

/-- Python `int()` on a digit string (the only strings this code applies it to). -/
def pyStrToNat (s : String) : Nat :=
  pyListToNat s.toList

/-- Python `int()` applied to a `PyVal`, as in the `double_check_*` comparisons. -/
def pyToNat : PyVal → Nat
  | .intv n => n
  | .strv s => pyStrToNat s

/-- Match attempt of the pattern
`({year_regex})·*·sep·*·(?:{year}|{short_year})` of
`get_earlier_of_slash_year` at the head of `cs`, where
`year_regex = (?:1[6789]\d\d|20[01]\d|2020)` (exactly the four-digit
numbers 1600..2020).  Returns `group(1)`, the four-digit candidate. -/
def matchEarlierAt (year : Nat) (cs : List Char) : Option String :=
  match cs with
  | d1 :: d2 :: d3 :: d4 :: rest =>
    if d1.isDigit && d2.isDigit && d3.isDigit && d4.isDigit then
      let n := pyListToNat [d1, d2, d3, d4]
      if 1600 ≤ n && n ≤ 2020 then
        match rest.dropWhile (· == ' ') with
        | sep :: r2 =>
          if sep == '-' || sep == '/' then
            let r3 := r2.dropWhile (· == ' ')
            let ys := (toString year).toList
            if ys.isPrefixOf r3 || (ys.drop 2).isPrefixOf r3 then
              some (String.mk [d1, d2, d3, d4])
            else none
          else none
        | [] => none
      else none
    else none
  | _ => none

/-- Leftmost match of `get_earlier_of_slash_year`'s `re.search`. -/
def findEarlier (year : Nat) : List Char → Option String
  | [] => none
  | c :: rest =>
    match matchEarlierAt year (c :: rest) with
    | some s => some s
    | none => findEarlier year rest

/-- ASCII fragment of Python's `\w` (word character) class. -/
def isWordChar (c : Char) : Bool :=
  c.isAlphanum || c == '_'

/-- Word boundary `\b` at a position whose preceding character is a digit:
holds iff the following text is empty or starts with a non-word character. -/
def boundaryAfterDigit : List Char → Bool
  | [] => true
  | c :: _ => !isWordChar c

/-- Four-digit alternatives `1[6789]\d\d|20[01]\d|2020` of
`get_later_of_slash_year`'s second-year regex, followed by `\b`. -/
def candFour (r3 : List Char) : Option String :=
  match r3 with
  | a :: b :: c :: d :: rest =>
    if a.isDigit && b.isDigit && c.isDigit && d.isDigit then
      let n := pyListToNat [a, b, c, d]
      if (1600 ≤ n && n ≤ 2020) && boundaryAfterDigit rest then
        some (String.mk [a, b, c, d])
      else none
    else none
  | _ => none

/-- Two-digit alternative `\d\d` of `get_later_of_slash_year`'s
second-year regex, followed by `\b`. -/
def candTwo (r3 : List Char) : Option String :=
  match r3 with
  | a :: b :: rest =>
    if a.isDigit && b.isDigit && boundaryAfterDigit rest then
      some (String.mk [a, b])
    else none
  | _ => none

/-- Match attempt of the pattern
`{year}·*·sep·*·((?:1[6789]\d\d|20[01]\d|2020|\d\d))\b` of
`get_later_of_slash_year` at the head of `cs`; alternation preference
tries the four-digit alternatives before `\d\d`.  Returns `group(1)`. -/
def matchLaterAt (year : Nat) (cs : List Char) : Option String :=
  let ys := (toString year).toList
  if ys.isPrefixOf cs then
    match (cs.drop ys.length).dropWhile (· == ' ') with
    | sep :: r2 =>
      if sep == '-' || sep == '/' then
        let r3 := r2.dropWhile (· == ' ')
        match candFour r3 with
        | some s => some s
        | none => candTwo r3
      else none
    | [] => none
  else none

/-- Leftmost match of `get_later_of_slash_year`'s `re.search`. -/
def findLater (year : Nat) : List Char → Option String
  | [] => none
  | c :: rest =>
    match matchLaterAt year (c :: rest) with
    | some s => some s
    | none => findLater year rest

/-- Embedding of `get_earlier_of_slash_year` (utilities.py lines 111-120).
On a match, the found four-digit string replaces the year exactly when its
integer value is strictly smaller; the replacement is the matched string. -/
def get_earlier_of_slash_year (year : Nat) (data_segment : String) : PyVal :=
  match findEarlier year data_segment.toList with
  | some found_year =>
    if pyStrToNat found_year < year then .strv found_year else .intv year
  | none => .intv year

/-- Embedding of `get_later_of_slash_year` (utilities.py lines 123-133).
A two-character candidate is prefixed with the first two characters of
`str(year)`; the (expanded) candidate replaces the year exactly when its
integer value is strictly larger; the replacement is a string. -/
def get_later_of_slash_year (year : Nat) (data_segment : String) : PyVal :=
  match findLater year data_segment.toList with
  | some found0 =>
    let found_year :=
      if found0.length = 2 then (toString year).take 2 ++ found0 else found0
    if year < pyStrToNat found_year then .strv found_year else .intv year
  | none => .intv year

/-- Embedding of `double_check_slash_start_year` (utilities.py lines 83-94). -/
def double_check_slash_start_year (bib_year : Nat) (bib_string : String)
    (holdings_year : Nat) (holdings_string : String) : Bool :=
  let bib := get_earlier_of_slash_year bib_year bib_string
  let hold := get_later_of_slash_year holdings_year holdings_string
  if pyToNat bib ≤ pyToNat hold then true else false

/-- Embedding of `double_check_slash_end_year` (utilities.py lines 97-108). -/
def double_check_slash_end_year (bib_year : Nat) (bib_string : String)
    (holdings_year : Nat) (holdings_string : String) : Bool :=
  let hold := get_earlier_of_slash_year holdings_year holdings_string
  let bib := get_later_of_slash_year bib_year bib_string
  if pyToNat hold ≤ pyToNat bib then true else false

/-- Token of the tiny pattern language needed by
`check_holdings_data_for_magic_words`: a literal character, an optional
character (as in the optional escaped dot), or a word boundary. -/
inductive RTok where
  | lit : Char → RTok
  | opt : Char → RTok
  | wb : RTok
deriving DecidableEq

/-- Word boundary test between a previous character (none at the start of
the text) and the rest of the text. -/
def atBoundary (prev : Option Char) (xs : List Char) : Bool :=
  (match prev with | some c => isWordChar c | none => false)
    != (match xs.head? with | some c => isWordChar c | none => false)

/-- Match of a token list at the head of `xs`; `prev` is the character
just before `xs` in the full text, used by word boundaries.  Optional
characters backtrack (consumed or skipped), as the regex engine does. -/
def matchToksAt : List RTok → List Char → Option Char → Bool
  | [], _, _ => true
  | .lit c :: ts, x :: xs, _ => x == c && matchToksAt ts xs (some x)
  | .lit _ :: _, [], _ => false
  | .opt c :: ts, x :: xs, prev =>
    (x == c && matchToksAt ts xs (some x)) || matchToksAt ts (x :: xs) prev
  | .opt _ :: ts, [], prev => matchToksAt ts [] prev
  | .wb :: ts, xs, prev => atBoundary prev xs && matchToksAt ts xs prev

/-- Search helper trying a match at every position, tracking the
preceding character for word boundaries. -/
def searchToksFrom (f : List RTok) : Option Char → List Char → Bool
  | prev, [] => matchToksAt f [] prev
  | prev, x :: xs => matchToksAt f (x :: xs) prev || searchToksFrom f (some x) xs

/-- Embedding of `re.search(fragment, text)` for the magic-word fragments:
true iff the fragment matches at some position of the text. -/
def searchFrag (f : List RTok) (text : List Char) : Bool :=
  searchToksFrom f none text

/-- Python's `str.lower()` on the ASCII range, over the character list. -/
def pyLower (s : String) : List Char :=
  s.toList.map Char.toLower

/-- Literal string as a token list. -/
def litToks (s : String) : List RTok :=
  s.toList.map .lit

/-- Embedding of the `search_data` dictionary of
`check_holdings_data_for_magic_words` (utilities.py lines 58-62); a key
outside the three entries is a `KeyError`, modelled as `none`.
The fragments are the regexes of the source: plain substrings for
completeness, `bound` and the pattern bd-optional-dot-space-w for
binding, and the dvd / word-bounded cd patterns for nonprint. -/
def search_data (search_type : String) : Option (List (List RTok)) :=
  if search_type = "completeness" then
    some [litToks "inc", litToks "compl", litToks "miss", litToks "lack",
      litToks "without", litToks "w/o", litToks "repr"]
  else if search_type = "binding" then
    some [litToks "bound",
      [.lit 'b', .lit 'd', .opt '.', .lit ' ', .lit 'w']]
  else if search_type = "nonprint" then
    some [[.lit 'd', .opt '.', .lit 'v', .opt '.', .lit 'd', .opt '.'],
      [.wb, .lit 'c', .opt '.', .lit 'd', .opt '.', .wb]]
  else none

/-- Loop of `check_holdings_data_for_magic_words` over the three holdings
segments: a falsy (absent or empty) segment is skipped; a truthy one
forces the `search_data[search_type]` lookup (`none` = `KeyError`) and
returns `"1"` as soon as any fragment matches the lower-cased segment. -/
def checkSegments : List (Option String) → String → Option String
  | [], _ => some ""
  | seg :: rest, search_type =>
    match seg with
    | none => checkSegments rest search_type
    | some s =>
      if s = "" then checkSegments rest search_type
      else
        match search_data search_type with
        | none => none
        | some frags =>
          if frags.any (fun f => searchFrag f (pyLower s)) then some "1"
          else checkSegments rest search_type

/-- Embedding of `check_holdings_data_for_magic_words`
(utilities.py lines 57-72). -/
def check_holdings_data_for_magic_words (holdings holdings_nonpublic_notes
    holdings_public_notes : Option String) (search_type : String) : Option String :=
  checkSegments [holdings, holdings_nonpublic_notes, holdings_public_notes] search_type

/-- Truthiness of a holdings segment: present and non-empty. -/
def segTruthy : Option String → Bool
  | none => false
  | some s => !(s == "")

/-- Segment contributes a match for the given fragment list: it is truthy
and some fragment matches its lower-cased text. -/
def segMatches (frags : List (List RTok)) (seg : Option String) : Bool :=
  match seg with
  | none => false
  | some s => !(s == "") && frags.any (fun f => searchFrag f (pyLower s))

/-- Index of the last occurrence of `c` in the list, as Python
`str.rindex` / `str.rfind` compute it. -/
def lastIdxOf (c : Char) : List Char → Option Nat
  | [] => none
  | x :: xs =>
    match lastIdxOf c xs with
    | some i => some (i + 1)
    | none => if x == c then some 0 else none

/-- Trailing slashes removed, as Python `str.rstrip` with a slash. -/
def rstripSlash (s : String) : String :=
  String.mk ((s.toList.reverse.dropWhile (· == '/')).reverse)

/-- Embedding of `os.path.split` (POSIX): the part up to the last slash
(trailing slashes stripped unless the head is all slashes) and the part
after it. -/
def osPathSplit (p : String) : String × String :=
  match lastIdxOf '/' p.toList with
  | none => ("", p)
  | some i =>
    let head := String.mk (p.toList.take (i + 1))
    let tail := String.mk (p.toList.drop (i + 1))
    if head.toList.all (· == '/') then (head, tail) else (rstripSlash head, tail)

/-- Embedding of `os.path.join` (POSIX) on two components. -/
def osPathJoin (a b : String) : String :=
  if b.toList.head? == some '/' then b
  else if a = "" then b
  else if a.toList.getLast? == some '/' then a ++ b
  else a ++ "/" ++ b

/-- Candidate `base(n)ext` inside `dir`, as built by the loop of
`get_unused_filename`. -/
def numberedName (dir base ext : String) (n : Nat) : String :=
  osPathJoin dir (base ++ "(" ++ toString n ++ ")" ++ ext)

/-- Loop of `get_unused_filename` (utilities.py lines 26-33), started at
`n = 1`: return the first free candidate; raise (`none`) when the
candidate numbered 999 is also taken.  The loop in the source is a
`while True`; its own `n >= 999` guard bounds it, so running it on any
fuel larger than `999 - n` is exact and the fuel-exhaustion branch is
unreachable from `get_unused_filename`. -/
def unusedSearch (isfile : String → Bool) (dir base ext : String) :
    Nat → Nat → Option String
  | _, 0 => none
  | n, fuel + 1 =>
    if isfile (numberedName dir base ext n) = false then
      some (numberedName dir base ext n)
    else if 999 ≤ n then none
    else unusedSearch isfile dir base ext (n + 1) fuel

/-- Embedding of `get_unused_filename` (utilities.py lines 11-33) against
an explicit filesystem-existence predicate `isfile`.  `none` models an
uncaught exception (the runaway-process `Exception` after 999 taken
candidates, or the `ValueError` of `rindex` on an extensionless name). -/
def get_unused_filename (isfile : String → Bool) (file_location : String) :
    Option String :=
  if isfile file_location = false then some file_location
  else
    let ps := osPathSplit file_location
    match lastIdxOf '.' ps.2.toList with
    | none => none
    | some i =>
      unusedSearch isfile ps.1
        (String.mk (ps.2.toList.take i)) (String.mk (ps.2.toList.drop i)) 1 1000

/-- Candidate path number `n` for an input path `p` whose filename has its
last dot at index `i`, for stating the `get_unused_filename` contract. -/
def unusedCandidate (p : String) (i : Nat) (n : Nat) : String :=
  numberedName (osPathSplit p).1
    (String.mk ((osPathSplit p).2.toList.take i))
    (String.mk ((osPathSplit p).2.toList.drop i)) n

/-- Modelled from the spec: the per-institution bulk store entry of
`BulkConfigStore` (`bulk_validator_preferences.BulkConfig` is not part of
the sources here), a record holding a FieldSet and IssueFlags. -/
structure BulkEntry where
  input_fields : List String
  disqualifying_issues : List (String × Bool)
deriving DecidableEq

/-- Modelled from the spec: the bulk configuration object
(`bulk_validator_preferences.BulkConfig`), with `bulk_config_data` mapping
an InstitutionKey to its entry and `associated_names_map` mapping an
alternate InstitutionKey to a canonical one present in the store (the
presence invariant is stated as a hypothesis where a claim needs it). -/
structure BulkConfig where
  bulk_config_data : String → Option BulkEntry
  associated_names_map : String → Option String

/-- Modelled from the spec: the per-file override store and global
defaults of `validator_config.ValidatorConfig`. `get_input_fields` yields
the per-file FieldSet (empty = falsy, nothing configured);
`config_disqualifying_issues` is the optional entry at key
`disqualifying_issues` of the config mapping (`none` = `KeyError`); and
`get_default_disqualifying_issues` is the hard-coded baseline. -/
structure ValidatorConfig where
  get_input_fields : String → List String
  config_disqualifying_issues : Option (List (String × Bool))
  get_default_disqualifying_issues : List (String × Bool)

/-- State of a `FieldsAndIssuesFinder` instance (utilities.py lines
176-241): the two configuration sources and the one-bit session flag. -/
structure FieldsAndIssuesFinder where
  validator_config : ValidatorConfig
  bulk_config : BulkConfig
  use_validator_config : Bool

/-- Embedding of `FieldsAndIssuesFinder.get_institution_name_from_filename`
(utilities.py lines 239-241): last path segment, up to the first period,
lower-cased. -/
def get_institution_name_from_filename (filename : String) : String :=
  let file_proper := (osPathSplit filename).2
  String.mk ((file_proper.toList.takeWhile (· != '.')).map Char.toLower)

/-- Embedding of `FieldsAndIssuesFinder.get_fields_for_individual_file`
(utilities.py lines 192-208).  Returns the fields (inner `none` is the
implicit Python `None` when nothing is configured) together with the
updated finder state; the outer `none` is the uncaught `KeyError` when an
alias points outside the bulk store. -/
def get_fields_for_individual_file (f : FieldsAndIssuesFinder)
    (filename : String) :
    Option (Option (List String) × FieldsAndIssuesFinder) :=
  let input_fields := f.validator_config.get_input_fields filename
  if input_fields ≠ [] then
    some (some input_fields, { f with use_validator_config := true })
  else
    let f1 := { f with use_validator_config := false }
    let inst_name := get_institution_name_from_filename filename
    match f1.bulk_config.bulk_config_data inst_name with
    | some entry => some (some entry.input_fields, f1)
    | none =>
      match f1.bulk_config.associated_names_map inst_name with
      | some program_name =>
        match f1.bulk_config.bulk_config_data program_name with
        | some entry => some (some entry.input_fields, f1)
        | none => none
      | none => some (none, f1)

/-- Fall-through tail of `get_issues_for_individual_file` (utilities.py
lines 228-237): the global `disqualifying_issues` configuration when the
key exists and its value is truthy (non-empty), else the hard-coded
defaults. -/
def issuesFallback (vc : ValidatorConfig) : List (String × Bool) :=
  match vc.config_disqualifying_issues with
  | some d => if d ≠ [] then d else vc.get_default_disqualifying_issues
  | none => vc.get_default_disqualifying_issues

/-- Embedding of `FieldsAndIssuesFinder.get_issues_for_individual_file`
(utilities.py lines 210-237).  The argument defaults to `None` in the
source; an empty string is falsy and behaves like `None`.  `none` models
the uncaught `KeyError` when an alias points outside the bulk store. -/
def get_issues_for_individual_file (f : FieldsAndIssuesFinder)
    (filename : Option String := none) : Option (List (String × Bool)) :=
  match filename with
  | some fn =>
    if fn = "" then some (issuesFallback f.validator_config)
    else
      let inst_name := get_institution_name_from_filename fn
      if (f.bulk_config.bulk_config_data inst_name).isSome
          && !f.use_validator_config then
        (f.bulk_config.bulk_config_data inst_name).map
          (fun e => e.disqualifying_issues)
      else
        match f.bulk_config.associated_names_map inst_name with
        | some program_name =>
          (f.bulk_config.bulk_config_data program_name).map
            (fun e => e.disqualifying_issues)
        | none => some (issuesFallback f.validator_config)
  | none => some (issuesFallback f.validator_config)

/-- Case split on the result of `get_earlier_of_slash_year`: the year
comes back unchanged, or the matched string with a strictly smaller
integer value comes back. -/
theorem earlier_cases (year : Nat) (t : String) :
    get_earlier_of_slash_year year t = PyVal.intv year ∨
    ∃ s, get_earlier_of_slash_year year t = PyVal.strv s ∧
      pyStrToNat s < year := by
  unfold get_earlier_of_slash_year
  cases h : findEarlier year t.toList with
  | none => left; rfl
  | some f =>
    by_cases hc : pyStrToNat f < year
    · right
      refine ⟨f, ?_, hc⟩
      show (if pyStrToNat f < year then _ else _) = _
      rw [if_pos hc]
    · left
      show (if pyStrToNat f < year then _ else _) = _
      rw [if_neg hc]

/-- Case split on the result of `get_later_of_slash_year`: the year comes
back unchanged, or the matched (possibly century-expanded) string with a
strictly larger integer value comes back. -/
theorem later_cases (year : Nat) (t : String) :
    get_later_of_slash_year year t = PyVal.intv year ∨
    ∃ s, get_later_of_slash_year year t = PyVal.strv s ∧
      year < pyStrToNat s := by
  unfold get_later_of_slash_year
  cases h : findLater year t.toList with
  | none => left; rfl
  | some f =>
    by_cases hc : year < pyStrToNat
        (if f.length = 2 then (toString year).take 2 ++ f else f)
    · right
      refine ⟨if f.length = 2 then (toString year).take 2 ++ f else f, ?_, hc⟩
      show (if year < pyStrToNat _ then _ else _) = _
      rw [if_pos hc]
    · left
      show (if year < pyStrToNat _ then _ else _) = _
      rw [if_neg hc]

/-- C2: `double_check_slash_start_year` returns `True` exactly when the
later reading of the holdings year is at least the earlier reading of the
bib year (compared as integers), and in particular accepts bib
(2001, "2001") against holdings (2000, "2000/01"). -/
theorem claim_C2 :
    (∀ (bib_year holdings_year : Nat) (bib_string holdings_string : String),
      double_check_slash_start_year bib_year bib_string
          holdings_year holdings_string = true ↔
        pyToNat (get_later_of_slash_year holdings_year holdings_string) ≥
          pyToNat (get_earlier_of_slash_year bib_year bib_string)) ∧
    double_check_slash_start_year 2001 "2001" 2000 "2000/01" = true := by
  constructor
  · intro bib_year holdings_year bib_string holdings_string
    simp only [double_check_slash_start_year, ge_iff_le]
    split <;> simp_all
  · decide

/-- C3: a slash-year correction never moves the year in the wrong
direction: the earlier-resolver's result is numerically at most the input
year and the later-resolver's result is numerically at least it. -/
theorem claim_C3 :
    ∀ (year : Nat) (text : String),
      pyToNat (get_earlier_of_slash_year year text) ≤ year ∧
      year ≤ pyToNat (get_later_of_slash_year year text) := by
  intro year text
  constructor
  · rcases earlier_cases year text with h | ⟨s, h, hs⟩ <;> rw [h]
    · exact Nat.le_refl year
    · exact Nat.le_of_lt hs
  · rcases later_cases year text with h | ⟨s, h, hs⟩ <;> rw [h]
    · exact Nat.le_refl year
    · exact Nat.le_of_lt hs

/-- C4: when `get_later_of_slash_year`'s search finds a candidate, a
two-character candidate is expanded with the first two characters of the
input year, the (expanded) candidate is adopted exactly when its integer
value exceeds the input year, and otherwise the year is returned
unchanged; hypotheses are discharged at the concrete input
(2000, "2000/01 issue") in the witness, where the result is the matched
year 2001. -/
theorem claim_C4 (year : Nat) (t : String) (f : String)
    (hf : findLater year t.toList = some f) :
    get_later_of_slash_year year t =
      (if year < pyStrToNat (if f.length = 2
            then (toString year).take 2 ++ f else f)
        then PyVal.strv (if f.length = 2
            then (toString year).take 2 ++ f else f)
        else PyVal.intv year) := by
  simp only [get_later_of_slash_year, hf]

theorem claim_C4_witness :
    findLater 2000 "2000/01 issue".toList = some "01" ∧
    get_later_of_slash_year 2000 "2000/01 issue" = PyVal.strv "2001" := by
  refine ⟨by decide, ?_⟩
  rw [claim_C4 2000 "2000/01 issue" "01" (by decide)]
  decide

/-- C5: when the slash-year search finds no match for the given year, both
resolvers return the year unchanged (and, being total functions of the
embedding, raise nothing). -/
theorem claim_C5 (year : Nat) (t : String) :
    (findEarlier year t.toList = none →
      get_earlier_of_slash_year year t = PyVal.intv year) ∧
    (findLater year t.toList = none →
      get_later_of_slash_year year t = PyVal.intv year) := by
  constructor
  · intro h
    unfold get_earlier_of_slash_year
    rw [h]
  · intro h
    unfold get_later_of_slash_year
    rw [h]

theorem claim_C5_witness :
    findEarlier 1999 "no slash years here".toList = none ∧
    findLater 1999 "no slash years here".toList = none ∧
    get_earlier_of_slash_year 1999 "no slash years here" = PyVal.intv 1999 ∧
    get_later_of_slash_year 1999 "no slash years here" = PyVal.intv 1999 := by
  refine ⟨by decide, by decide, ?_, ?_⟩
  · exact (claim_C5 1999 "no slash years here").1 (by decide)
  · exact (claim_C5 1999 "no slash years here").2 (by decide)

/-- C9 fails on the code: when a correction is adopted the resolvers
return the matched digit string, not an integer; at (2000, "2000/01")
`get_later_of_slash_year` returns the string value "2001". -/
theorem claim_C9_counterexample :
    get_later_of_slash_year 2000 "2000/01" = PyVal.strv "2001" ∧
    ∀ n : Nat, get_later_of_slash_year 2000 "2000/01" ≠ PyVal.intv n := by
  refine ⟨by decide, ?_⟩
  intro n h
  rw [show get_later_of_slash_year 2000 "2000/01" = PyVal.strv "2001" by decide]
      at h
  exact PyVal.noConfusion h

/-- C9 amended: years are compared as integers, and each resolver returns
either the input year unchanged (as the integer it was given) or the
matched digit string, whose integer value is strictly on the claimed side
of the input year (callers re-coerce it with `int()`). -/
theorem claim_C9_amended (year : Nat) (t : String) :
    (get_earlier_of_slash_year year t = PyVal.intv year ∨
      ∃ s, get_earlier_of_slash_year year t = PyVal.strv s ∧
        pyStrToNat s < year) ∧
    (get_later_of_slash_year year t = PyVal.intv year ∨
      ∃ s, get_later_of_slash_year year t = PyVal.strv s ∧
        year < pyStrToNat s) := by
  exact ⟨earlier_cases year t, later_cases year t⟩

/-- Unfolding of the classifier loop when the condition key is valid: the
result is "1" exactly when some segment is truthy and matches a fragment,
and "" otherwise; it is never the error value. -/
theorem checkSegments_valid_key (st : String) (frags : List (List RTok))
    (hst : search_data st = some frags) :
    ∀ segs : List (Option String),
      checkSegments segs st =
        (if segs.any (segMatches frags) then some "1" else some "") := by
  intro segs
  induction segs with
  | nil => rfl
  | cons seg rest ih =>
    cases seg with
    | none => simpa [checkSegments, segMatches] using ih
    | some s =>
      by_cases hs : s = ""
      · subst hs
        simpa [checkSegments, segMatches] using ih
      · by_cases hm : frags.any (fun f => searchFrag f (pyLower s)) = true
        · simp [checkSegments, hs, hst, hm, segMatches]
        · simp only [Bool.not_eq_true] at hm
          simp [checkSegments, hs, hst, hm, segMatches, ih]

/-- Unfolding of the classifier loop when the condition key is invalid:
the dictionary lookup raises (`none`) at the first truthy segment, and
the loop returns "" when every segment is falsy. -/
theorem checkSegments_invalid_key (st : String)
    (hst : search_data st = none) :
    ∀ segs : List (Option String),
      checkSegments segs st = (if segs.any segTruthy then none else some "") := by
  intro segs
  induction segs with
  | nil => rfl
  | cons seg rest ih =>
    cases seg with
    | none => simpa [checkSegments, segTruthy] using ih
    | some s =>
      by_cases hs : s = ""
      · subst hs
        simpa [checkSegments, segTruthy] using ih
      · simp [checkSegments, hs, hst, segTruthy]

/-- C7: for the three valid conditions, the classifier returns "1" exactly
when at least one non-blank text field, lower-cased, matches at least one
fragment of the condition, and returns "" otherwise; blank or absent
fields are skipped and never make it raise. -/
theorem claim_C7 (h n p : Option String) (st : String)
    (hst : st = "completeness" ∨ st = "binding" ∨ st = "nonprint") :
    ∃ frags, search_data st = some frags ∧
      check_holdings_data_for_magic_words h n p st =
        (if [h, n, p].any (segMatches frags) then some "1" else some "") := by
  have hsome : ∃ frags, search_data st = some frags := by
    rcases hst with h1 | h1 | h1 <;> subst h1 <;> exact ⟨_, rfl⟩
  rcases hsome with ⟨frags, hfrags⟩
  exact ⟨frags, hfrags,
    checkSegments_valid_key st frags hfrags [h, n, p]⟩

theorem claim_C7_witness :
    ("completeness" = "completeness" ∨ ("completeness" : String) = "binding" ∨
      ("completeness" : String) = "nonprint") ∧
    check_holdings_data_for_magic_words
      (some "v.1-5 incomplete") none none "completeness" = some "1" := by
  refine ⟨Or.inl rfl, ?_⟩
  rcases claim_C7 (some "v.1-5 incomplete") none none "completeness"
      (Or.inl rfl) with ⟨frags, hfrags, hres⟩
  rw [hres]
  have : frags = [litToks "inc", litToks "compl", litToks "miss",
      litToks "lack", litToks "without", litToks "w/o", litToks "repr"] := by
    have h2 : search_data "completeness" = some [litToks "inc", litToks "compl",
        litToks "miss", litToks "lack", litToks "without", litToks "w/o",
        litToks "repr"] := rfl
    rw [h2] at hfrags
    exact (Option.some.injEq _ _).mp hfrags.symm
  subst this
  decide

/-- C10: for a condition key outside the three valid ones, the classifier
raises `KeyError` (the error value `none`) exactly when at least one of
the three text fields is non-blank, and returns "" without error when all
are blank or absent: detection of the bad key depends on the field
contents. -/
theorem claim_C10 (h n p : Option String) (st : String)
    (h1 : st ≠ "completeness") (h2 : st ≠ "binding") (h3 : st ≠ "nonprint") :
    check_holdings_data_for_magic_words h n p st =
      (if [h, n, p].any segTruthy then none else some "") := by
  have hst : search_data st = none := by
    simp [search_data, h1, h2, h3]
  exact checkSegments_invalid_key st hst [h, n, p]

theorem claim_C10_witness :
    (("bogus" : String) ≠ "completeness" ∧ ("bogus" : String) ≠ "binding" ∧
      ("bogus" : String) ≠ "nonprint") ∧
    check_holdings_data_for_magic_words
      (some "v.1 bound") none none "bogus" = none ∧
    check_holdings_data_for_magic_words none (some "") none "bogus" = some "" := by
  refine ⟨⟨by decide, by decide, by decide⟩, ?_, ?_⟩
  · rw [claim_C10 (some "v.1 bound") none none "bogus"
      (by decide) (by decide) (by decide)]
    decide
  · rw [claim_C10 none (some "") none "bogus"
      (by decide) (by decide) (by decide)]
    decide

/-- Loop lemma for `unusedSearch`: with enough fuel, if candidate `m` (at
most 999) is the first free candidate from `n` on, the loop returns it. -/
theorem unusedSearch_finds (isfile : String → Bool) (dir base ext : String) :
    ∀ (fuel n m : Nat), n ≤ m → m ≤ 999 → m - n < fuel →
      isfile (numberedName dir base ext m) = false →
      (∀ k, n ≤ k → k < m → isfile (numberedName dir base ext k) = true) →
      unusedSearch isfile dir base ext n fuel =
        some (numberedName dir base ext m) := by
  intro fuel
  induction fuel with
  | zero => intro n m _ _ hfuel _ _; omega
  | succ fuel ih =>
    intro n m hnm hm999 hfuel hfree htaken
    rcases Nat.eq_or_lt_of_le hnm with heq | hlt
    · subst heq
      unfold unusedSearch
      rw [hfree]
      simp
    · have hn : isfile (numberedName dir base ext n) = true :=
        htaken n (Nat.le_refl n) hlt
      unfold unusedSearch
      rw [hn]
      have h999 : ¬ 999 ≤ n := by omega
      simp only [Bool.true_eq_false, if_false, h999, ite_false]
      exact ih (n + 1) m hlt hm999 (by omega) hfree
        (fun k hk1 hk2 => htaken k (by omega) hk2)

/-- Loop lemma for `unusedSearch`: with enough fuel, if every candidate
from `n` through 999 is taken, the loop raises (returns `none`). -/
theorem unusedSearch_exhausts (isfile : String → Bool) (dir base ext : String) :
    ∀ (fuel n : Nat), n ≤ 999 → 999 - n < fuel →
      (∀ k, n ≤ k → k ≤ 999 → isfile (numberedName dir base ext k) = true) →
      unusedSearch isfile dir base ext n fuel = none := by
  intro fuel
  induction fuel with
  | zero => intro n _ hfuel _; omega
  | succ fuel ih =>
    intro n hn999 hfuel htaken
    have hn : isfile (numberedName dir base ext n) = true :=
      htaken n (Nat.le_refl n) hn999
    unfold unusedSearch
    rw [hn]
    rcases Nat.eq_or_lt_of_le hn999 with heq | hlt
    · subst heq
      simp
    · have h999 : ¬ 999 ≤ n := by omega
      simp only [Bool.true_eq_false, if_false, h999, ite_false]
      exact ih (n + 1) hlt (by omega)
        (fun k hk1 hk2 => htaken k (by omega) hk2)

/-- C8: if no file exists at the path, `get_unused_filename` returns the
path unchanged; otherwise (for a filename with an extension, last dot at
index `i`) it returns the first candidate of the form base(n)ext, n = 1,
2, ..., at which no file exists, and raises (the error value `none`) when
the candidates numbered 1 through 999 are all taken. -/
theorem claim_C8 (isfile : String → Bool) (p : String) :
    (isfile p = false → get_unused_filename isfile p = some p) ∧
    (isfile p = true →
      ∀ i, lastIdxOf '.' (osPathSplit p).2.toList = some i →
        (∀ m, 1 ≤ m → m ≤ 999 →
          isfile (unusedCandidate p i m) = false →
          (∀ k, 1 ≤ k → k < m → isfile (unusedCandidate p i k) = true) →
          get_unused_filename isfile p = some (unusedCandidate p i m)) ∧
        ((∀ k, 1 ≤ k → k ≤ 999 → isfile (unusedCandidate p i k) = true) →
          get_unused_filename isfile p = none)) := by
  constructor
  · intro hfree
    unfold get_unused_filename
    rw [hfree]
    simp
  · intro htaken i hdot
    have hbody : get_unused_filename isfile p =
        unusedSearch isfile (osPathSplit p).1
          (String.mk ((osPathSplit p).2.toList.take i))
          (String.mk ((osPathSplit p).2.toList.drop i)) 1 1000 := by
      unfold get_unused_filename
      rw [htaken]
      simp only [Bool.true_eq_false, if_false]
      rw [hdot]
    constructor
    · intro m hm1 hm999 hfree hprev
      rw [hbody]
      exact unusedSearch_finds isfile (osPathSplit p).1
        (String.mk ((osPathSplit p).2.toList.take i))
        (String.mk ((osPathSplit p).2.toList.drop i))
        1000 1 m hm1 hm999 (by omega) hfree hprev
    · intro hall
      rw [hbody]
      exact unusedSearch_exhausts isfile (osPathSplit p).1
        (String.mk ((osPathSplit p).2.toList.take i))
        (String.mk ((osPathSplit p).2.toList.drop i))
        1000 1 (by omega) (by omega) hall

/-- Example filesystem of the claim: exactly "x.txt" and "x(1).txt" exist. -/
def exampleFS (s : String) : Bool :=
  s == "x.txt" || s == "x(1).txt"

theorem claim_C8_witness :
    exampleFS "x.txt" = true ∧
    get_unused_filename exampleFS "x.txt" = some "x(2).txt" := by
  refine ⟨by decide, ?_⟩
  have h := ((claim_C8 exampleFS "x.txt").2 (by decide) 1 (by decide)).1
    2 (by omega) (by omega) (by decide)
    (fun k hk1 hk2 => by
      have hk : k = 1 := by omega
      subst hk
      decide)
  rw [h]
  have : unusedCandidate "x.txt" 1 2 = "x(2).txt" := by decide
  rw [this]

/-- Validator configuration of the C1 scenario: a per-file override for
"lib.tsv" and a non-empty global disqualifying-issues entry. -/
def vcC1 : ValidatorConfig :=
  { get_input_fields := fun s => if s = "lib.tsv" then ["856"] else []
    config_disqualifying_issues := some [("duplicate_record", true)]
    get_default_disqualifying_issues := [("default_issue", true)] }

/-- Bulk configuration of the C1 scenario: "lib" has its own bulk entry
and is also an alias of "prog". -/
def bcC1 : BulkConfig :=
  { bulk_config_data := fun s =>
      if s = "lib" then
        some { input_fields := ["001"],
               disqualifying_issues := [("lib_bulk_issue", true)] }
      else if s = "prog" then
        some { input_fields := ["002"],
               disqualifying_issues := [("prog_bulk_issue", true)] }
      else none
    associated_names_map := fun s => if s = "lib" then some "prog" else none }

/-- C1 fails on the code: with an override for "lib.tsv" and institution
key "lib" present in the bulk store, the following issues lookup does not
fall through to the global default when "lib" is also in the alias map —
the alias branch ignores the override flag and returns the aliased bulk
issues. -/
theorem claim_C1_counterexample :
    vcC1.get_input_fields "lib.tsv" ≠ [] ∧
    (bcC1.bulk_config_data
      (get_institution_name_from_filename "lib.tsv")).isSome = true ∧
    get_fields_for_individual_file ⟨vcC1, bcC1, false⟩ "lib.tsv" =
      some (some ["856"], ⟨vcC1, bcC1, true⟩) ∧
    get_issues_for_individual_file ⟨vcC1, bcC1, true⟩ (some "lib.tsv") =
      some [("prog_bulk_issue", true)] ∧
    [("prog_bulk_issue", true)] ≠ issuesFallback vcC1 := by
  refine ⟨by decide, by decide, by rfl, by rfl, by decide⟩

/-- C1 amended: when the override store has a FieldSet for `fn` and the
institution key of `fn` is not in the alias map, `resolve_fields`
returns the override's FieldSet (setting the override flag) and the
immediately following `resolve_issues` ignores the institution's bulk
entry even when present, falling through to the global default. -/
theorem claim_C1_amended (vc : ValidatorConfig) (bc : BulkConfig) (b : Bool)
    (fn : String)
    (hov : vc.get_input_fields fn ≠ [])
    (hbulk : (bc.bulk_config_data
      (get_institution_name_from_filename fn)).isSome = true)
    (halias : bc.associated_names_map
      (get_institution_name_from_filename fn) = none) :
    get_fields_for_individual_file ⟨vc, bc, b⟩ fn =
      some (some (vc.get_input_fields fn), ⟨vc, bc, true⟩) ∧
    get_issues_for_individual_file ⟨vc, bc, true⟩ (some fn) =
      some (issuesFallback vc) := by
  constructor
  · unfold get_fields_for_individual_file
    rw [if_pos hov]
  · unfold get_issues_for_individual_file
    by_cases hfn : fn = ""
    · simp [hfn]
    · simp [hfn, halias]

/-- Validator configuration of the C1 witness scenario. -/
def vcW1 : ValidatorConfig :=
  { get_input_fields := fun s => if s = "uw.tsv" then ["245"] else []
    config_disqualifying_issues := some [("w_issue", true)]
    get_default_disqualifying_issues := [("w_default", true)] }

/-- Bulk configuration of the C1 witness scenario: "uw" has a bulk entry
and no alias entry. -/
def bcW1 : BulkConfig :=
  { bulk_config_data := fun s =>
      if s = "uw" then
        some { input_fields := ["003"],
               disqualifying_issues := [("uw_bulk", true)] }
      else none
    associated_names_map := fun _ => none }

theorem claim_C1_amended_witness :
    vcW1.get_input_fields "uw.tsv" ≠ [] ∧
    get_fields_for_individual_file ⟨vcW1, bcW1, false⟩ "uw.tsv" =
      some (some ["245"], ⟨vcW1, bcW1, true⟩) ∧
    get_issues_for_individual_file ⟨vcW1, bcW1, true⟩ (some "uw.tsv") =
      some [("w_issue", true)] := by
  have h := claim_C1_amended vcW1 bcW1 false "uw.tsv"
    (by decide) (by decide) (by rfl)
  exact ⟨by decide, h.1.trans (by rfl), h.2.trans (by decide)⟩

/-- Validator configuration of the C6 scenario: no overrides, a non-empty
global disqualifying-issues entry, and a hard-coded default. -/
def vcC6 : ValidatorConfig :=
  { get_input_fields := fun _ => []
    config_disqualifying_issues := some [("global_issue", true)]
    get_default_disqualifying_issues := [("hard_default", true)] }

/-- Bulk configuration of the C6 scenario: "uni" is only an alias of
"prog", which has a bulk entry. -/
def bcC6 : BulkConfig :=
  { bulk_config_data := fun s =>
      if s = "prog" then
        some { input_fields := ["004"],
               disqualifying_issues := [("prog_issue", true)] }
      else none
    associated_names_map := fun s => if s = "uni" then some "prog" else none }

/-- Alias targets of `bcC6` are present in its bulk store. -/
theorem bcC6_aliasOk : ∀ k t, bcC6.associated_names_map k = some t →
    (bcC6.bulk_config_data t).isSome = true := by
  intro k t h
  by_cases hk : k = "uni"
  · subst hk
    have ht : t = "prog" := by
      have h2 : (some "prog" : Option String) = some t := h
      exact (Option.some.injEq _ _).mp h2.symm
    subst ht
    rfl
  · exact absurd h (by simp [bcC6, hk])

/-- C6 fails on the code: with the override flag set (and the institution
absent from the bulk store), the issues lookup still does not return the
global configuration when the institution key is in the alias map — it
returns the aliased institution's bulk issues. -/
theorem claim_C6_counterexample :
    get_issues_for_individual_file ⟨vcC6, bcC6, true⟩ (some "uni.xlsx") =
      some [("prog_issue", true)] ∧
    bcC6.bulk_config_data
      (get_institution_name_from_filename "uni.xlsx") = none ∧
    [("prog_issue", true)] ≠ issuesFallback vcC6 := by
  refine ⟨by rfl, by decide, by decide⟩

/-- C6 amended: on any configuration whose alias targets are present in
the bulk store, `resolve_issues` always returns an IssueFlags mapping; and
when no filename is supplied, the filename is empty (falsy), or the
institution key is not in the alias map and either the override flag is
set or the key is not in the bulk store, the result is the global
`disqualifying_issues` configuration when present and non-empty, else the
hard-coded default. -/
theorem claim_C6_amended (vc : ValidatorConfig) (bc : BulkConfig) (b : Bool)
    (fn : Option String)
    (haliasOk : ∀ k t, bc.associated_names_map k = some t →
      (bc.bulk_config_data t).isSome = true) :
    (get_issues_for_individual_file ⟨vc, bc, b⟩ fn).isSome = true ∧
    ((fn = none ∨ fn = some "" ∨
        ∃ s, fn = some s ∧
          bc.associated_names_map (get_institution_name_from_filename s)
            = none ∧
          (b = true ∨ bc.bulk_config_data
            (get_institution_name_from_filename s) = none)) →
      get_issues_for_individual_file ⟨vc, bc, b⟩ fn =
        some (issuesFallback vc)) := by
  constructor
  · cases fn with
    | none => rfl
    | some s =>
      unfold get_issues_for_individual_file
      by_cases hs : s = ""
      · simp [hs]
      · simp only [hs, if_false, if_neg hs]
        by_cases hcond : ((bc.bulk_config_data
            (get_institution_name_from_filename s)).isSome && !b) = true
        · simp only [hcond, if_pos, if_true]
          rcases Bool.and_eq_true_iff.mp hcond with ⟨h1, _⟩
          rcases Option.isSome_iff_exists.mp h1 with ⟨e, he⟩
          simp [he]
        · simp only [hcond, if_false]
          cases ha : bc.associated_names_map
              (get_institution_name_from_filename s) with
          | none => simp [ha]
          | some t =>
            rcases Option.isSome_iff_exists.mp (haliasOk _ _ ha) with ⟨e, he⟩
            simp [ha, he]
  · intro hcase
    rcases hcase with hnone | hempty | ⟨s, hfn, halias, hrest⟩
    · subst hnone; rfl
    · subst hempty
      unfold get_issues_for_individual_file
      simp
    · subst hfn
      unfold get_issues_for_individual_file
      by_cases hs : s = ""
      · simp [hs]
      · rcases hrest with hb | hbulk
        · subst hb
          simp [hs, halias]
        · simp [hs, halias, hbulk]

theorem claim_C6_amended_witness :
    (get_issues_for_individual_file ⟨vcC6, bcC6, true⟩
      (some "unknown.tsv")).isSome = true ∧
    get_issues_for_individual_file ⟨vcC6, bcC6, true⟩ (some "unknown.tsv") =
      some (issuesFallback vcC6) := by
  have h := claim_C6_amended vcC6 bcC6 true (some "unknown.tsv") bcC6_aliasOk
  exact ⟨h.1, h.2 (Or.inr (Or.inr ⟨"unknown.tsv", rfl, by decide, Or.inl rfl⟩))⟩
